import Mathlib

/-!
Verification development for the multi-camera calibration and triangulation
core (Observation Store, Bundle Adjustment Optimizer, Accuracy Validator,
Triangulator).  Python floats are modelled by exact rationals; external
numerical kernels (SVD, Rodrigues, DLT triangulation, square root) are
modelled as explicit function parameters together with the contracts the
source relies on.  Machine exceptions are modelled with `Except`/`Option`.
-/

namespace Vision

/-- A 2-D detection: a list of (x, y) image points
(`points_2d` in `calibration_model.process_view`). -/
abbrev Det := List (ℚ × ℚ)

/-- A 3-D template point. -/
abbrev Pt3 := ℚ × ℚ × ℚ

/-- Present detection, per the source test
`points_2d is not None and len(points_2d) > 0`. -/
def detPresent (d : Option Det) : Bool :=
  match d with
  | some l => decide (l ≠ [])
  | none => false

/-- The settings consumed by `process_view`
(`calibration.pattern_rows/pattern_cols/square_size`). -/
structure Cfg where
  rows : ℕ
  cols : ℕ
  square_size : ℚ

/-- The object-point template built in `process_view`:
`objp[:, :2] = np.mgrid[0:rows, 0:cols].T.reshape(-1, 2) * square_size`,
i.e. the points ((i·s, k·s, 0)) for k over columns (outer) and i over rows
(inner), matching numpy's transpose/reshape order. -/
def objTemplate (cfg : Cfg) : List Pt3 :=
  (List.range cfg.cols).flatMap fun k =>
    (List.range cfg.rows).map fun i =>
      ((i : ℚ) * cfg.square_size, (k : ℚ) * cfg.square_size, 0)

/-- The Observation Store state (`CalibrationModel` fields relevant to
observation bookkeeping). -/
structure CalibState where
  n_cameras : ℕ
  object_points : List (List Pt3)
  image_points : List (List (Option Det))
  valid_views : List (Finset ℕ)
deriving DecidableEq

/-- Embeds `CalibrationModel.reset` / fresh construction: everything empty. -/
def resetState : CalibState :=
  { n_cameras := 0, object_points := [], image_points := [], valid_views := [] }

/-- Embeds `CalibrationModel.initialize_cameras`: sets the camera count and fresh
per-camera detection rows and valid sets (object_points is untouched). -/
def initializeCameras (n : ℕ) (s : CalibState) : CalibState :=
  { s with n_cameras := n
           image_points := List.replicate n []
           valid_views := List.replicate n ∅ }

/-- The error raised by `process_view` on a camera-count mismatch
(`CalibrationError("Inconsistent camera count: ...")`; the spec's
`InconsistentCameraCount`). -/
inductive CalibErr
  | inconsistentCameraCount
deriving DecidableEq

/-- The `while len(self.image_points[cam_idx]) <= view_idx: append(None)`
padding: extend a row with `none` until it has an index for `view_idx`. -/
def padTo (row : List (Option Det)) (view_idx : ℕ) : List (Option Det) :=
  row ++ List.replicate (view_idx + 1 - row.length) none

/-- The `if len(self.object_points) <= view_idx` branch of `process_view`:
append one template built from the settings (note: a single append, not
padding up to `view_idx`). -/
def addTemplate (cfg : Cfg) (view_idx : ℕ) (s : CalibState) : CalibState :=
  if s.object_points.length ≤ view_idx then
    { s with object_points := s.object_points ++ [objTemplate cfg] }
  else s

/-- One iteration of the per-camera loop of `process_view` for camera
`cam_idx`: the defensive `if len(self.image_points) <= cam_idx` append,
the `while` padding, then either store the converted points and add the
view to the camera's valid set, or store `None`.
`List.set` out of range is a no-op; in every state produced by the store
the rows are exactly `n_cameras` long and the camera index stays in range,
matching the source (which would raise `IndexError` otherwise). -/
def storeCamStep (view_idx cam_idx : ℕ) (d : Option Det) (s : CalibState) :
    CalibState :=
  let ips := if s.image_points.length ≤ cam_idx then s.image_points ++ [[]]
             else s.image_points
  let row := padTo (ips.getD cam_idx []) view_idx
  if detPresent d then
    { s with image_points := ips.set cam_idx (row.set view_idx (some (d.getD [])))
             valid_views := s.valid_views.set cam_idx
               (insert view_idx (s.valid_views.getD cam_idx ∅)) }
  else
    { s with image_points := ips.set cam_idx (row.set view_idx none) }

/-- The per-camera loop of `process_view`, iterating over `frame_data`
with the running camera index and the `valid_detections` counter. -/
def storeCams (view_idx : ℕ) : CalibState → ℕ → ℕ → List (Option Det) → CalibState × ℕ
  | s, _, cnt, [] => (s, cnt)
  | s, cam_idx, cnt, d :: rest =>
    storeCams view_idx (storeCamStep view_idx cam_idx d s) (cam_idx + 1)
      (if detPresent d then cnt + 1 else cnt) rest

/-- The body of `process_view` after the camera-count checks: store (or
reuse) the view template, then store each camera's detection; the returned
flag is the source's return value `valid_detections >= 2`. -/
def processBody (cfg : Cfg) (s : CalibState) (view_idx : ℕ)
    (frame_data : List (Option Det)) : CalibState × Except CalibErr Bool :=
  let s1 := addTemplate cfg view_idx s
  let r := storeCams view_idx s1 0 0 frame_data
  (r.1, Except.ok (decide (2 ≤ r.2)))

/-- Embeds `CalibrationModel.process_view`.  The first component is the state of
the store after the call (unchanged when the call raises); the second is
the raised error or the returned boolean. -/
def processView (cfg : Cfg) (s : CalibState) (view_idx : ℕ)
    (frame_data : List (Option Det)) : CalibState × Except CalibErr Bool :=
  if s.n_cameras = 0 then
    processBody cfg (initializeCameras frame_data.length s) view_idx frame_data
  else if s.n_cameras ≠ frame_data.length then
    (s, Except.error CalibErr.inconsistentCameraCount)
  else
    processBody cfg s view_idx frame_data

/-- Number of cameras with a present detection in a `frame_data` list. -/
def presentCount (frame_data : List (Option Det)) : ℕ :=
  frame_data.countP detPresent

abbrev M3 := Matrix (Fin 3) (Fin 3) ℚ
abbrev V3q := Fin 3 → ℚ
abbrev V2q := Fin 2 → ℚ

/-- The `CameraParameters` record of `bundle_adjustment.py`. -/
structure CamParams where
  camera_matrix : M3
  dist_coeffs : List ℚ
  rvec : V3q
  tvec : V3q

/-- The `BundleAdjustment` state. -/
structure BAState where
  cameras : List CamParams
  object_points : List (List Pt3)
  image_points : List (List (Option Det))
  valid_views : List (Finset ℕ)
  n_cameras : ℕ
  n_views : ℕ
  n_points : ℕ

/-- Embeds `BundleAdjustment.__init__`. -/
def initBA : BAState :=
  { cameras := [], object_points := [], image_points := [], valid_views := []
    n_cameras := 0, n_views := 0, n_points := 0 }

/-- Embeds `BundleAdjustment.set_camera_parameters`. -/
def setCameraParameters (cams : List CamParams) (s : BAState) : BAState :=
  { s with cameras := cams, n_cameras := cams.length
           valid_views := List.replicate cams.length ∅ }

/-- The view indices of one camera's row with a non-absent detection
(the `enumerate` loop marking valid views). -/
def viewsOf (row : List (Option Det)) : Finset ℕ :=
  ((List.range row.length).filter fun v => (row.getD v none).isSome).toFinset

/-- The `Mark valid views` loop of `set_calibration_data`: for each camera
index below `n`, add the detected view indices to that camera's set. -/
def markValid (ip : List (List (Option Det))) (n : ℕ)
    (vv : List (Finset ℕ)) : List (Finset ℕ) :=
  (List.range n).foldl
    (fun acc cam => acc.set cam (acc.getD cam ∅ ∪ viewsOf (ip.getD cam []))) vv

/-- Embeds `BundleAdjustment.set_calibration_data`. -/
def setCalibrationData (op : List (List Pt3)) (ip : List (List (Option Det)))
    (s : BAState) : BAState :=
  { s with object_points := op, image_points := ip, n_views := op.length
           n_points := match op with | [] => 0 | o :: _ => o.length
           valid_views := markValid ip s.n_cameras s.valid_views }

/-- Which branch `optimize()` takes at entry: the
`if self.n_cameras < 1 or self.n_views < 1` early return (the unsuccessful
"Not enough cameras or views" result, the spec's `InsufficientData`), or
the attempt at nonlinear optimization via `scipy.optimize.least_squares`. -/
inductive OptEntry
  | insufficientData
  | attempted
deriving DecidableEq

/-- The entry guard of `BundleAdjustment.optimize`. -/
def optimizeEntry (s : BAState) : OptEntry :=
  if s.n_cameras < 1 ∨ s.n_views < 1 then OptEntry.insufficientData
  else OptEntry.attempted

/-- A per-camera statistic value: `float("inf")` or a computed number. -/
inductive StatVal
  | inf
  | val (x : ℚ)
deriving DecidableEq

/-- One camera's entry of the `camera_stats` dictionary. -/
structure CamStat where
  rms : StatVal
  n_valid_views : ℕ
  max_error : StatVal
deriving DecidableEq

/-- Mean of squares (`np.mean(cam_residuals**2)`); a list's RMS is its
square root. -/
def meanSq (l : List ℚ) : ℚ :=
  (l.map fun x => x ^ 2).sum / l.length

/-- Embeds `np.max(np.abs(cam_residuals))` for a list of residuals (equal to the
fold below whenever the list is nonempty, since absolute values are
nonnegative). -/
def maxAbs (l : List ℚ) : ℚ :=
  (l.map fun x => |x|).foldr max 0

/-- The per-camera loop of `_compute_camera_statistics`, carrying the
running slice index `idx`; `sqrtF` models the floating-point square root
applied by `np.sqrt`. -/
def camStatsAux (sqrtF : ℚ → ℚ) (np2 : ℕ) (vv : List (Finset ℕ))
    (res : List ℚ) : List ℕ → ℕ → List CamStat
  | [], _ => []
  | c :: cs, idx =>
    let nv := (vv.getD c ∅).card
    let cnt := nv * np2
    let camRes := if 0 < cnt then (res.drop idx).take cnt else []
    let idx' := if 0 < cnt then idx + cnt else idx
    let st :=
      if camRes.length ≠ 0 then
        { rms := StatVal.val (sqrtF (meanSq camRes)), n_valid_views := nv
          max_error := StatVal.val (maxAbs camRes) }
      else
        { rms := StatVal.inf, n_valid_views := nv, max_error := StatVal.inf }
    st :: camStatsAux sqrtF np2 vv res cs idx'

/-- Embeds `BundleAdjustment._compute_camera_statistics`: re-slice the final
residual vector camera by camera (each valid view contributes
`n_points * 2` scalars) and report RMS / max absolute error, with
`float("inf")` for a camera with no residuals. -/
def computeCameraStatistics (sqrtF : ℚ → ℚ) (s : BAState) (res : List ℚ) :
    List CamStat :=
  camStatsAux sqrtF (s.n_points * 2) s.valid_views res (List.range s.n_cameras) 0

/-- Embeds `np.median`: sort ascending; middle element for odd length, mean of the
two middle elements for even length. -/
def npMedian (l : List ℚ) : ℚ :=
  let s := l.insertionSort (· ≤ ·)
  if l.length % 2 = 1 then s.getD (l.length / 2) 0
  else (s.getD (l.length / 2 - 1) 0 + s.getD (l.length / 2) 0) / 2

/-- Embeds `np.median(np.abs(view_errors - median_view_error))`. -/
def madOf (l : List ℚ) : ℚ :=
  npMedian (l.map fun x => |x - npMedian l|)

/-- The outlier threshold of `_compute_stereo_3d_error`:
`median_view_error + 2.5 * mad`, computed from the per-view median errors.
The argument is the list of per-view per-point error vectors `view_error`
(one inner list per view that survived triangulation and alignment, in
view order). -/
def stereoThreshold (viewErrs : List (List ℚ)) : ℚ :=
  let ve := viewErrs.map npMedian
  npMedian ve + 5 / 2 * madOf ve

/-- The filtered error list of `_compute_stereo_3d_error`, exactly as the
source builds it:
`[err for err, view_err in zip(all_3d_errors, view_errors) if view_err <= threshold]`
where `all_3d_errors` is the flattened per-point error list and
`view_errors` the list of per-view medians (`zip` truncates to the shorter
list, as in Python). -/
def stereoFilteredErrors (viewErrs : List (List ℚ)) : List ℚ :=
  let all := viewErrs.flatten
  let ve := viewErrs.map npMedian
  let thr := stereoThreshold viewErrs
  ((all.zip ve).filter fun p => p.2 ≤ thr).map Prod.fst

/-- The tail of `_compute_stereo_3d_error` (after the per-view loop has
produced the error vectors): outlier filtering and the final RMS figure,
`None` when nothing usable remains; `sqrtF` models `np.sqrt`. -/
def stereoFilterStage (sqrtF : ℚ → ℚ) (viewErrs : List (List ℚ)) : Option ℚ :=
  let all := viewErrs.flatten
  if all.length ≠ 0 then
    let f := stereoFilteredErrors viewErrs
    if f.length ≠ 0 then some (sqrtF (meanSq f)) else none
  else none

/-- The per-point errors of the non-outlier views, following the spec's
words ("Discard all per-point errors belonging to outlier views"), for
comparison with `stereoFilteredErrors`. -/
def specRemainingErrors (viewErrs : List (List ℚ)) : List ℚ :=
  (viewErrs.filter fun ve => npMedian ve ≤ stereoThreshold viewErrs).flatten

/-- Centroid of a 3-D point list (`np.mean(A, axis=0)`). -/
def centroid (l : List V3q) : V3q :=
  fun j => (l.map fun p => p j).sum / l.length

/-- The cross-covariance matrix `H = AA.T @ BB` of
`_estimate_rigid_transform`, with both point sets centred on their
centroids. -/
def crossCov (A B : List V3q) : M3 :=
  Matrix.of fun j k =>
    ((A.zip B).map fun p => (p.1 j - centroid A j) * (p.2 k - centroid B k)).sum

/-- Embeds `BundleAdjustment._estimate_rigid_transform`: `svd` models
`np.linalg.svd` restricted to its `(U, Vt)` factors.  The rotation is
`Vt.T @ U.T`; when its determinant is negative the last row of `Vt` is
negated and the rotation recomputed; the translation is
`centroid_A - R @ centroid_B` with the final rotation.
`kabschRotation` is the rotation part (`R = Vt.T @ U.T` with the
sign fix), factored out of `_estimate_rigid_transform`. -/
def kabschRotation (U Vt : M3) : M3 :=
  let R := Vt.transpose * U.transpose
  if R.det < 0 then
    (Matrix.updateRow Vt 2 fun j => -Vt 2 j).transpose * U.transpose
  else R

/-- Embeds `BundleAdjustment._estimate_rigid_transform`: centre both point sets,
apply the modelled SVD to the cross-covariance matrix, form the rotation
with the reflection fix, and return it with the translation
`centroid_A - R @ centroid_B`. -/
def estimateRigidTransform (svd : M3 → M3 × M3) (A B : List V3q) :
    M3 × V3q :=
  let cA := centroid A
  let cB := centroid B
  let H := crossCov A B
  let R := kabschRotation (svd H).1 (svd H).2
  (R, fun j => cA j - R.mulVec cB j)

abbrev M34 := Matrix (Fin 3) (Fin 4) ℚ

/-- The calibration payload read by `MeasurementModel.triangulate_point`
(arrays `camera_matrices`, `rotations`, `translations`, one entry per
camera). -/
structure MCalib where
  camera_matrices : List M3
  rotations : List V3q
  translations : List V3q

/-- Embeds `np.hstack([R, t])`: a 3×4 matrix whose first three columns are `R`
and last column is `t`. -/
def hstackRT (R : M3) (t : V3q) : M34 :=
  Matrix.of fun i j => if h : (j : ℕ) < 3 then R i ⟨j, h⟩ else t i

/-- One iteration of the projection-matrix loop of `triangulate_point`:
look up the camera's intrinsics, rotation and translation (an
out-of-range camera index raises, modelled as `none`), and build
`P = K @ np.hstack([R, t])` together with the 2-D point; `rodr` models
`cv2.Rodrigues`. -/
def projOf (rodr : V3q → M3) (c : MCalib) (tup : ℕ × ℚ × ℚ) :
    Option (M34 × V2q) :=
  match c.camera_matrices[tup.1]?, c.rotations[tup.1]?,
      c.translations[tup.1]? with
  | some K, some r, some tr =>
    some (K * hstackRT (rodr r) tr, ![tup.2.1, tup.2.2])
  | _, _, _ => none

/-- The full projection-matrix loop: fails (propagating the caught
exception) as soon as one tuple's lookups fail. -/
def buildProj (rodr : V3q → M3) (c : MCalib) :
    List (ℕ × ℚ × ℚ) → Option (List (M34 × V2q))
  | [] => some []
  | t :: ts =>
    match projOf rodr c t, buildProj rodr c ts with
    | some pv, some rest => some (pv :: rest)
    | _, _ => none

/-- Dehomogenization `(points_4d[:3] / points_4d[3])`. -/
def dehomog (p : Fin 4 → ℚ) : V3q :=
  fun i => p i.castSucc / p 3

/-- Embeds `MeasurementModel.triangulate_point`: `rodr` models `cv2.Rodrigues`,
`tri` models `cv2.triangulatePoints` on one point pair.  Only the first
two projection matrices and 2-D points are passed to triangulation
(`proj_matrices[0]`, `proj_matrices[1]`, `points_2d[:, 0:1]`,
`points_2d[:, 1:2]`); any exception (missing calibration handled
separately, failed lookup, too few tuples) yields `none`. -/
def triangulatePoint (rodr : V3q → M3)
    (tri : M34 → M34 → V2q → V2q → (Fin 4 → ℚ))
    (calib : Option MCalib) (pd : List (ℕ × ℚ × ℚ)) : Option V3q :=
  match calib with
  | none => none
  | some c =>
    match buildProj rodr c pd with
    | none => none
    | some l =>
      match l[0]?, l[1]? with
      | some p0, some p1 => some (dehomog (tri p0.1 p1.1 p0.2 p1.2))
      | _, _ => none

/-- Embeds `MeasurementModel._calculate_confidence`: `0.0` below two views, else
`min(1.0, n_views / 2)`. -/
def calculateConfidence (pd : List (ℕ × ℚ × ℚ)) : ℚ :=
  if pd.length < 2 then 0 else min 1 ((pd.length : ℚ) / 2)

/-! ### Concrete fixtures used by witnesses and counterexamples -/

/-- A concrete settings payload (2×2 pattern, unit squares). -/
def cfg0 : Cfg := ⟨2, 2, 1⟩

/-- A concrete camera-parameter record. -/
def camP0 : CamParams := ⟨1, [], fun _ => 0, fun _ => 0⟩

/-- A session with exactly one camera and one view with data. -/
def baOneCam : BAState :=
  setCalibrationData [[(0, 0, 0)]] [[some [(0, 0)]]]
    (setCameraParameters [camP0] initBA)

/-- A two-camera session where camera 1 has no valid view. -/
def baTwoCam : BAState :=
  setCalibrationData [[(0, 0, 0)]] [[some [(0, 0)]], [none]]
    (setCameraParameters [camP0, camP0] initBA)

/-! ### Theorems for the claims -/

/-- C1: the spec says every per-point error of an outlier view is
discarded and the returned figure is the RMS of exactly the remaining
views' per-point errors.  The source instead zips the flattened per-point
error list with the list of per-view medians
(`zip(all_3d_errors, view_errors)`), truncating to one error per view and
pairing each with an unrelated view's median.  At the input with two
views whose per-point errors are `[1, 3]` and `[2, 2]` no view is an
outlier (threshold = 2), so the claim demands the RMS over all four
errors (mean square 9/2); the code's filter keeps only `[1, 3]` (mean
square 5). -/
theorem c1_outlier_filter_zip_mismatch :
    stereoFilteredErrors [[1, 3], [2, 2]] = [1, 3] ∧
    specRemainingErrors [[1, 3], [2, 2]] = [1, 3, 2, 2] ∧
    meanSq [1, 3] ≠ meanSq [(1 : ℚ), 3, 2, 2] ∧
    stereoFilterStage (fun x => x) [[1, 3], [2, 2]] = some (meanSq [1, 3]) := by
  refine ⟨?_, ?_, ?_, ?_⟩
  · norm_num [stereoFilteredErrors, stereoThreshold, npMedian, madOf,
      List.insertionSort, List.orderedInsert]
  · norm_num [specRemainingErrors, stereoThreshold, npMedian, madOf,
      List.insertionSort, List.orderedInsert]
  · norm_num [meanSq]
  · norm_num [stereoFilterStage, stereoFilteredErrors, stereoThreshold, npMedian,
      madOf, meanSq, List.insertionSort, List.orderedInsert]

/-- C2: on a session whose camera count has been set (nonzero sentinel),
a `process_view` call whose per-camera detection list has a different
length raises the inconsistent-camera-count error and leaves the
Observation Store state (templates, detections, valid sets) unchanged. -/
theorem c2_camera_count_mismatch_raises_state_unchanged
    (cfg : Cfg) (s : CalibState) (v : ℕ) (fd : List (Option Det))
    (hset : s.n_cameras ≠ 0) (hmm : fd.length ≠ s.n_cameras) :
    processView cfg s v fd = (s, Except.error CalibErr.inconsistentCameraCount) := by
  unfold processView
  rw [if_neg hset, if_pos (Ne.symm hmm)]

/-- Witness for C2 at a concrete input: a session initialized for 2
cameras, called with 3 detections. -/
theorem c2_witness :
    processView cfg0 (initializeCameras 2 resetState) 0 [some [(0, 0)], none, none]
      = (initializeCameras 2 resetState, Except.error CalibErr.inconsistentCameraCount) :=
  c2_camera_count_mismatch_raises_state_unchanged cfg0 (initializeCameras 2 resetState)
    0 [some [(0, 0)], none, none] (by decide) (by decide)

/-- C3 counterexample: a session with exactly 1 camera and one view with
data does NOT take the `InsufficientData` early return of `optimize()`
(the guard is `n_cameras < 1 or n_views < 1`); it proceeds to attempt
optimization, contradicting the claim. -/
theorem c3_single_camera_attempts_cex :
    baOneCam.n_cameras = 1 ∧ 1 ≤ baOneCam.n_views ∧
    optimizeEntry baOneCam = OptEntry.attempted ∧
    OptEntry.attempted ≠ OptEntry.insufficientData := by
  decide

/-- C3 amended: `optimize()` returns the unsuccessful
"Not enough cameras or views" (`InsufficientData`) result exactly when
the session has 0 cameras or 0 views; in particular a session with
exactly 1 camera and at least one view attempts optimization instead. -/
theorem c3_insufficient_iff_no_cameras_or_views (cams : List CamParams)
    (op : List (List Pt3)) (ip : List (List (Option Det))) :
    optimizeEntry (setCalibrationData op ip (setCameraParameters cams initBA))
      = OptEntry.insufficientData ↔ (cams = [] ∨ op = []) := by
  have h1 : (setCalibrationData op ip (setCameraParameters cams initBA)).n_cameras
      = cams.length := rfl
  have h2 : (setCalibrationData op ip (setCameraParameters cams initBA)).n_views
      = op.length := rfl
  unfold optimizeEntry
  rw [h1, h2]
  constructor
  · intro h
    split at h
    · next hc =>
      rcases hc with hc | hc
      · exact Or.inl (List.length_eq_zero.mp (by omega))
      · exact Or.inr (List.length_eq_zero.mp (by omega))
    · exact absurd h (by simp)
  · intro h
    have hlt : cams.length < 1 ∨ op.length < 1 := by
      rcases h with h | h <;> simp [h]
    rw [if_pos hlt]

/-- C4: per the spec, after a successful `recordView` for view index `v`
the store holds a 3-D template associated with `v`, also for indices
arriving out of increasing order.  The source's
`if len(self.object_points) <= view_idx: self.object_points.append(objp)`
appends a single template instead of padding up to `view_idx` (its own
comment says "Ensure object_points list is long enough to store this
view", and the parallel `image_points` code pads with a `while` loop).
Calling view index 1 first succeeds and stores the detection for view 1,
but leaves only one template, at index 0 — none associated with view 1. -/
theorem c4_out_of_order_view_loses_template :
    (processView cfg0 (initializeCameras 1 resetState) 1 [some [(0, 0)]]).2
        = Except.ok false ∧
    ((processView cfg0 (initializeCameras 1 resetState) 1
        [some [(0, 0)]]).1).object_points.length = 1 ∧
    ((((processView cfg0 (initializeCameras 1 resetState) 1
        [some [(0, 0)]]).1).image_points.getD 0 []).getD 1 none).isSome = true :=
  ⟨rfl, rfl, rfl⟩

/-- The counter threaded through the per-camera loop accumulates exactly
the number of present detections. -/
theorem storeCams_count (view_idx : ℕ) (fd : List (Option Det)) :
    ∀ (s : CalibState) (ci cnt : ℕ),
      (storeCams view_idx s ci cnt fd).2 = cnt + presentCount fd := by
  induction fd with
  | nil => intro s ci cnt; simp [storeCams, presentCount]
  | cons d rest ih =>
    intro s ci cnt
    simp only [storeCams]
    rw [ih]
    simp only [presentCount, List.countP_cons]
    cases h : detPresent d
    · simp [h]
    · simp only [h, if_true]
      omega

/-- C5 counterexample: `process_view` does not return the count of
cameras with a present detection — it returns the boolean
`valid_detections >= 2`.  Two calls whose inputs have different present
counts (0 and 1) return the same value `false`, so no reading of the
return value can be the count. -/
theorem c5_returns_bool_not_count_cex :
    (processView cfg0 (initializeCameras 2 resetState) 0 [none, none]).2
        = Except.ok false ∧
    (processView cfg0 (initializeCameras 2 resetState) 0 [some [(0, 0)], none]).2
        = Except.ok false ∧
    presentCount [none, none] = 0 ∧
    presentCount [some [((0 : ℚ), (0 : ℚ))], none] = 1 := by
  exact ⟨rfl, rfl, rfl, rfl⟩

/-- C5 amended: a successful `process_view` call returns the boolean that
is true exactly when at least 2 cameras supplied a present detection for
the view. -/
theorem c5_flag_true_iff_two_present (cfg : Cfg) (s : CalibState) (v : ℕ)
    (fd : List (Option Det)) (s' : CalibState) (b : Bool)
    (h : processView cfg s v fd = (s', Except.ok b)) :
    b = decide (2 ≤ presentCount fd) := by
  unfold processView at h
  split at h
  · unfold processBody at h
    have h2 := congrArg Prod.snd h
    simp only at h2
    rw [storeCams_count] at h2
    simp only [Nat.zero_add] at h2
    exact (Except.ok.inj h2).symm
  · split at h
    · exact absurd (congrArg Prod.snd h) (by simp)
    · unfold processBody at h
      have h2 := congrArg Prod.snd h
      simp only at h2
      rw [storeCams_count] at h2
      simp only [Nat.zero_add] at h2
      exact (Except.ok.inj h2).symm

/-- Witness for C5 (amended) at a concrete input with 2 present
detections: the returned flag is `true`. -/
theorem c5_witness :
    (true : Bool) = decide (2 ≤ presentCount [some [((0 : ℚ), (0 : ℚ))], some [(1, 1)]]) :=
  c5_flag_true_iff_two_present cfg0 resetState 0 [some [(0, 0)], some [(1, 1)]]
    (processView cfg0 resetState 0 [some [(0, 0)], some [(1, 1)]]).1 true rfl

/-- Element `i` of the per-camera statistics loop is the infinity record
whenever camera `cs[i]` has an empty valid set, regardless of the running
slice index. -/
theorem camStatsAux_empty_valid (sqrtF : ℚ → ℚ) (np2 : ℕ) (vv : List (Finset ℕ))
    (res : List ℚ) (cs : List ℕ) :
    ∀ (idx i : ℕ), i < cs.length → vv.getD (cs.getD i 0) ∅ = ∅ →
      (camStatsAux sqrtF np2 vv res cs idx).getD i ⟨StatVal.inf, 0, StatVal.inf⟩
        = ⟨StatVal.inf, 0, StatVal.inf⟩ := by
  induction cs with
  | nil => intro idx i h; simp at h
  | cons c cs ih =>
    intro idx i hlen hempty
    cases i with
    | zero =>
      simp only [List.getD_cons_zero] at hempty
      rw [List.getD_eq_getElem?_getD] at hempty
      simp [camStatsAux, hempty]
    | succ j =>
      simp only [List.getD_cons_succ] at hempty
      simp only [camStatsAux, List.getD_cons_succ]
      exact ih _ j (by simpa using hlen) hempty

/-- C6: `optimize()`'s statistics step is total (it cannot crash), and a
camera with an empty valid-view set is reported with RMS and max error
`float("inf")` and zero valid views. -/
theorem c6_zero_valid_views_reports_inf (sqrtF : ℚ → ℚ) (s : BAState)
    (res : List ℚ) (c : ℕ) (hc : c < s.n_cameras)
    (he : s.valid_views.getD c ∅ = ∅) :
    (computeCameraStatistics sqrtF s res).getD c ⟨StatVal.inf, 0, StatVal.inf⟩
      = ⟨StatVal.inf, 0, StatVal.inf⟩ := by
  unfold computeCameraStatistics
  have hidx : (List.range s.n_cameras).getD c 0 = c := by
    rw [List.getD_eq_getElem?_getD, List.getElem?_range hc]
    rfl
  exact camStatsAux_empty_valid sqrtF (s.n_points * 2) s.valid_views res
    (List.range s.n_cameras) 0 c (by simpa using hc) (by rw [hidx]; exact he)

/-- Witness for C6 at a concrete two-camera session where camera 1 has no
valid view and the residual vector is nonempty. -/
theorem c6_witness :
    (computeCameraStatistics (fun x => x) baTwoCam [1, 2]).getD 1
        ⟨StatVal.inf, 0, StatVal.inf⟩ = ⟨StatVal.inf, 0, StatVal.inf⟩ :=
  c6_zero_valid_views_reports_inf (fun x => x) baTwoCam [1, 2] 1
    (by decide) (by decide)

/-- C8: the Triangulator's confidence is 0 below 2 views, exactly 1 for
2 or more views, and monotonically non-decreasing in the number of
views. -/
theorem c8_confidence_monotone_saturates (pd : List (ℕ × ℚ × ℚ)) :
    (pd.length < 2 → calculateConfidence pd = 0) ∧
    (2 ≤ pd.length → calculateConfidence pd = 1) ∧
    ∀ pd' : List (ℕ × ℚ × ℚ), pd.length ≤ pd'.length →
      calculateConfidence pd ≤ calculateConfidence pd' := by
  have hsat : ∀ l : List (ℕ × ℚ × ℚ), 2 ≤ l.length → calculateConfidence l = 1 := by
    intro l hl
    have h2 : ¬ l.length < 2 := by omega
    have hge : (1 : ℚ) ≤ (l.length : ℚ) / 2 := by
      rw [le_div_iff₀ (by norm_num)]
      have : (2 : ℚ) ≤ (l.length : ℚ) := by exact_mod_cast hl
      linarith
    simp [calculateConfidence, h2, min_eq_left hge]
  refine ⟨fun h => by simp [calculateConfidence, h], hsat pd, ?_⟩
  intro pd' hle
  by_cases hA : pd.length < 2
  · have h0 : calculateConfidence pd = 0 := by simp [calculateConfidence, hA]
    rw [h0]
    unfold calculateConfidence
    split
    · exact le_refl 0
    · positivity
  · have hB : 2 ≤ pd'.length := by omega
    rw [hsat pd (by omega), hsat pd' hB]

/-- Witness for C8 at concrete inputs: 1 view gives 0, 2 views give 1,
and growing from 1 to 3 views does not decrease confidence. -/
theorem c8_witness :
    calculateConfidence [(0, 0, 0)] = 0 ∧
    calculateConfidence [(0, 0, 0), (1, 0, 0)] = 1 ∧
    calculateConfidence [(0, 0, 0)] ≤
      calculateConfidence [(0, 0, 0), (1, 0, 0), (2, 0, 0)] :=
  ⟨(c8_confidence_monotone_saturates [(0, 0, 0)]).1 (by decide),
   (c8_confidence_monotone_saturates [(0, 0, 0), (1, 0, 0)]).2.1 (by decide),
   (c8_confidence_monotone_saturates [(0, 0, 0)]).2.2
     [(0, 0, 0), (1, 0, 0), (2, 0, 0)] (by decide)⟩

/-- The sign-fixed rotation has determinant exactly 1 whenever the SVD
factors have determinant ±1 (stated as squares equal to 1, the contract
`np.linalg.svd` guarantees for its orthogonal factors). -/
theorem kabschRotation_det (U Vt : M3) (hU : U.det ^ 2 = 1)
    (hV : Vt.det ^ 2 = 1) : (kabschRotation U Vt).det = 1 := by
  have hdet : (Vt.transpose * U.transpose).det = Vt.det * U.det := by
    rw [Matrix.det_mul, Matrix.det_transpose, Matrix.det_transpose]
  have hflip : ((Matrix.updateRow Vt 2 fun j => -Vt 2 j).transpose
      * U.transpose).det = -(Vt.det * U.det) := by
    have hrow : (fun j => -Vt 2 j) = (-1 : ℚ) • Vt 2 := by
      funext j
      simp
    rw [Matrix.det_mul, Matrix.det_transpose, Matrix.det_transpose, hrow,
        Matrix.det_updateRow_smul, Matrix.updateRow_eq_self]
    ring
  have hsq : (Vt.det * U.det) ^ 2 = 1 := by
    rw [mul_pow, hV, hU]
    ring
  simp only [kabschRotation]
  split
  case isTrue h =>
    rw [hflip]
    rw [hdet] at h
    nlinarith [sq_nonneg (Vt.det * U.det + 1), sq_nonneg (Vt.det * U.det - 1)]
  case isFalse h =>
    rw [hdet]
    rw [hdet] at h
    push_neg at h
    nlinarith [sq_nonneg (Vt.det * U.det + 1), sq_nonneg (Vt.det * U.det - 1)]

/-- C7: for any corresponding point sets, the rigid-transform estimator
returns a rotation with determinant +1 — also when the raw `V·Uᵗ` matrix
has determinant −1 — and a translation equal to the centroid difference
corrected by that rotation; the SVD factors are modelled by functions
satisfying the orthogonality contract (determinant squared 1) at the
cross-covariance matrix of the inputs. -/
theorem c7_kabsch_proper_rotation (svd : M3 → M3 × M3) (A B : List V3q)
    (hU : ((svd (crossCov A B)).1).det ^ 2 = 1)
    (hV : ((svd (crossCov A B)).2).det ^ 2 = 1) :
    ((estimateRigidTransform svd A B).1).det = 1 ∧
    (estimateRigidTransform svd A B).2 = fun j =>
      centroid A j - ((estimateRigidTransform svd A B).1).mulVec (centroid B) j :=
  ⟨kabschRotation_det (svd (crossCov A B)).1 (svd (crossCov A B)).2 hU hV, rfl⟩

/-- A modelled SVD whose `V·Uᵗ` is a reflection (determinant −1),
forcing the sign-fix branch. -/
def svdRefl : M3 → M3 × M3 := fun _ => (1, Matrix.diagonal ![1, 1, -1])

/-- Three non-collinear sample points. -/
def ptsW : List V3q := [![0, 0, 0], ![1, 0, 0], ![0, 1, 0]]

/-- Witness for C7 at a concrete adversarial input where the raw SVD
rotation is a reflection. -/
theorem c7_witness :
    ((estimateRigidTransform svdRefl ptsW ptsW).1).det = 1 ∧
    (estimateRigidTransform svdRefl ptsW ptsW).2 = fun j =>
      centroid ptsW j -
        ((estimateRigidTransform svdRefl ptsW ptsW).1).mulVec (centroid ptsW) j :=
  c7_kabsch_proper_rotation svdRefl ptsW ptsW
    (by norm_num [svdRefl])
    (by norm_num [svdRefl, Matrix.det_diagonal, Fin.prod_univ_three])

/-! ### Observation Store invariant (C9) -/

/-- The forward direction of the spec's ValidSet invariant: every
(camera, view) pair holding a present Observation has the view index in
that camera's valid set. -/
def ObsInv (s : CalibState) : Prop :=
  ∀ c v, ((s.image_points.getD c []).getD v none).isSome = true →
    v ∈ s.valid_views.getD c ∅

theorem getD_set_self {α : Type _} (l : List α) (i : ℕ) (x d : α)
    (h : i < l.length) : (l.set i x).getD i d = x := by
  rw [List.getD_eq_getElem?_getD, List.getElem?_set_self h]
  rfl

theorem getD_set_ne {α : Type _} (l : List α) (i j : ℕ) (x d : α)
    (h : i ≠ j) : (l.set i x).getD j d = l.getD j d := by
  rw [List.getD_eq_getElem?_getD, List.getElem?_set_ne h,
    ← List.getD_eq_getElem?_getD]

theorem getD_replicate_nil (n c : ℕ) :
    (List.replicate n ([] : List (Option Det))).getD c [] = [] := by
  rw [List.getD_eq_getElem?_getD, List.getElem?_replicate]
  split <;> rfl

/-- Padding a row with `none` entries changes no lookup (absent default). -/
theorem getD_padTo (row : List (Option Det)) (k v : ℕ) :
    (padTo row k).getD v none = row.getD v none := by
  unfold padTo
  rw [List.getD_eq_getElem?_getD, List.getElem?_append]
  split
  · rw [List.getD_eq_getElem?_getD]
  · next h =>
    push_neg at h
    rw [List.getElem?_replicate, List.getD_eq_getElem?_getD,
      List.getElem?_len_le h]
    split <;> rfl

/-- One loop iteration keeps the camera count, the templates and the row
counts (the defensive append cannot fire for an in-range camera index). -/
theorem storeCamStep_fields (view_idx cam_idx : ℕ) (d : Option Det)
    (s : CalibState) (hci : cam_idx < s.image_points.length) :
    (storeCamStep view_idx cam_idx d s).n_cameras = s.n_cameras ∧
    (storeCamStep view_idx cam_idx d s).object_points = s.object_points ∧
    (storeCamStep view_idx cam_idx d s).image_points.length
      = s.image_points.length ∧
    (storeCamStep view_idx cam_idx d s).valid_views.length
      = s.valid_views.length := by
  have hno : ¬ s.image_points.length ≤ cam_idx := by omega
  unfold storeCamStep
  simp only [hno, if_false]
  cases detPresent d <;> simp

/-- One loop iteration preserves the forward invariant. -/
theorem storeCamStep_inv (view_idx cam_idx : ℕ) (d : Option Det)
    (s : CalibState) (hci : cam_idx < s.image_points.length)
    (hvv : s.image_points.length = s.valid_views.length)
    (hinv : ObsInv s) : ObsInv (storeCamStep view_idx cam_idx d s) := by
  have hno : ¬ s.image_points.length ≤ cam_idx := by omega
  intro c v hsome
  unfold storeCamStep at hsome ⊢
  simp only [hno, if_false] at hsome ⊢
  by_cases hd : detPresent d = true
  · rw [if_pos hd] at hsome ⊢
    dsimp only at hsome ⊢
    by_cases hc : c = cam_idx
    · subst hc
      rw [getD_set_self _ _ _ _ hci] at hsome
      rw [getD_set_self _ _ _ _ (by omega : c < s.valid_views.length)]
      by_cases hv : v = view_idx
      · subst hv
        exact Finset.mem_insert_self v _
      · rw [getD_set_ne _ _ _ _ _ (fun h => hv h.symm), getD_padTo] at hsome
        exact Finset.mem_insert_of_mem (hinv c v hsome)
    · rw [getD_set_ne _ _ _ _ _ (fun h => hc h.symm)] at hsome
      rw [getD_set_ne _ _ _ _ _ (fun h => hc h.symm)]
      exact hinv c v hsome
  · rw [if_neg hd] at hsome ⊢
    dsimp only at hsome ⊢
    by_cases hc : c = cam_idx
    · subst hc
      rw [getD_set_self _ _ _ _ hci] at hsome
      by_cases hv : v = view_idx
      · subst hv
        rw [getD_set_self _ _ _ _ (by simp [padTo]; omega)] at hsome
        simp at hsome
      · rw [getD_set_ne _ _ _ _ _ (fun h => hv h.symm), getD_padTo] at hsome
        exact hinv c v hsome
    · rw [getD_set_ne _ _ _ _ _ (fun h => hc h.symm)] at hsome
      exact hinv c v hsome

/-- The per-camera loop preserves the shape facts and the invariant as
long as the camera indices it visits stay below the row count. -/
theorem storeCams_wf (view_idx : ℕ) (fd : List (Option Det)) :
    ∀ (s : CalibState) (ci cnt : ℕ),
      s.image_points.length = s.n_cameras →
      s.valid_views.length = s.n_cameras →
      ci + fd.length ≤ s.n_cameras →
      ObsInv s →
      ((storeCams view_idx s ci cnt fd).1.image_points.length = s.n_cameras ∧
       (storeCams view_idx s ci cnt fd).1.valid_views.length = s.n_cameras ∧
       (storeCams view_idx s ci cnt fd).1.n_cameras = s.n_cameras ∧
       (storeCams view_idx s ci cnt fd).1.object_points = s.object_points ∧
       ObsInv (storeCams view_idx s ci cnt fd).1) := by
  induction fd with
  | nil =>
    intro s ci cnt h1 h2 _ hinv
    exact ⟨h1, h2, rfl, rfl, hinv⟩
  | cons d rest ih =>
    intro s ci cnt h1 h2 hb hinv
    have hci : ci < s.image_points.length := by
      simp only [List.length_cons] at hb
      omega
    obtain ⟨f1, f2, f3, f4⟩ := storeCamStep_fields view_idx ci d s hci
    have step_inv : ObsInv (storeCamStep view_idx ci d s) :=
      storeCamStep_inv view_idx ci d s hci (by omega) hinv
    simp only [storeCams]
    have := ih (storeCamStep view_idx ci d s) (ci + 1)
      (if detPresent d then cnt + 1 else cnt)
      (by rw [f3, f1, h1]) (by rw [f4, f1, h2])
      (by rw [f1]; simp only [List.length_cons] at hb; omega) step_inv
    rw [f1] at this
    obtain ⟨a1, a2, a3, a4, a5⟩ := this
    exact ⟨a1, a2, a3, by rw [a4, f2], a5⟩

/-- The `addTemplate` step touches only `object_points`. -/
theorem addTemplate_fields (cfg : Cfg) (v : ℕ) (s : CalibState) :
    (addTemplate cfg v s).image_points = s.image_points ∧
    (addTemplate cfg v s).valid_views = s.valid_views ∧
    (addTemplate cfg v s).n_cameras = s.n_cameras := by
  unfold addTemplate
  split <;> exact ⟨rfl, rfl, rfl⟩

theorem addTemplate_inv (cfg : Cfg) (v : ℕ) (s : CalibState)
    (hinv : ObsInv s) : ObsInv (addTemplate cfg v s) := by
  unfold addTemplate
  split
  · exact fun c w h => hinv c w h
  · exact hinv

/-- A freshly initialized store satisfies the invariant. -/
theorem initializeCameras_inv (n : ℕ) (s : CalibState) :
    ObsInv (initializeCameras n s) := by
  intro c v h
  rw [show (initializeCameras n s).image_points
      = List.replicate n [] from rfl, getD_replicate_nil] at h
  simp at h

/-- The call `process_view` preserves the shape facts and the invariant. -/
theorem processView_wf (cfg : Cfg) (v : ℕ) (fd : List (Option Det))
    (s : CalibState)
    (h1 : s.image_points.length = s.n_cameras)
    (h2 : s.valid_views.length = s.n_cameras)
    (hinv : ObsInv s) :
    ((processView cfg s v fd).1.image_points.length
        = (processView cfg s v fd).1.n_cameras ∧
     (processView cfg s v fd).1.valid_views.length
        = (processView cfg s v fd).1.n_cameras ∧
     ObsInv (processView cfg s v fd).1) := by
  unfold processView processBody
  split
  · obtain ⟨g1, g2, g3⟩ :=
      addTemplate_fields cfg v (initializeCameras fd.length s)
    have ginv : ObsInv (addTemplate cfg v (initializeCameras fd.length s)) :=
      addTemplate_inv cfg v _ (initializeCameras_inv fd.length s)
    have hb1 : (initializeCameras fd.length s).image_points.length
        = (initializeCameras fd.length s).n_cameras := by
      simp [initializeCameras]
    have hb2 : (initializeCameras fd.length s).valid_views.length
        = (initializeCameras fd.length s).n_cameras := by
      simp [initializeCameras]
    have hncam : (initializeCameras fd.length s).n_cameras = fd.length := rfl
    obtain ⟨a1, a2, a3, _, a5⟩ :=
      storeCams_wf v fd (addTemplate cfg v (initializeCameras fd.length s)) 0 0
        (by rw [g1, g3]; exact hb1) (by rw [g2, g3]; exact hb2)
        (by rw [g3, hncam]; omega) ginv
    rw [g3] at a1 a2 a3
    dsimp only
    exact ⟨by rw [a1, a3], by rw [a2, a3], a5⟩
  · split
    · exact ⟨h1, h2, hinv⟩
    · next hne =>
      push_neg at hne
      obtain ⟨g1, g2, g3⟩ := addTemplate_fields cfg v s
      have ginv : ObsInv (addTemplate cfg v s) := addTemplate_inv cfg v s hinv
      obtain ⟨a1, a2, a3, _, a5⟩ := storeCams_wf v fd (addTemplate cfg v s) 0 0
        (by rw [g1, g3]; exact h1) (by rw [g2, g3]; exact h2)
        (by rw [g3, hne]; omega) ginv
      rw [g3] at a1 a2 a3
      dsimp only
      exact ⟨by rw [a1, a3], by rw [a2, a3], a5⟩

/-- The states reachable by session initialization and `process_view`
calls (in any order, with arbitrary settings per call). -/
inductive Reachable : CalibState → Prop
  | reset : Reachable resetState
  | init (n : ℕ) {s : CalibState} : Reachable s → Reachable (initializeCameras n s)
  | step (cfg : Cfg) (v : ℕ) (fd : List (Option Det)) {s : CalibState} :
      Reachable s → Reachable (processView cfg s v fd).1

/-- Every reachable store state has consistent row counts and satisfies
the forward invariant. -/
theorem reachable_wf (s : CalibState) (h : Reachable s) :
    s.image_points.length = s.n_cameras ∧
    s.valid_views.length = s.n_cameras ∧ ObsInv s := by
  induction h with
  | reset =>
    refine ⟨rfl, rfl, ?_⟩
    intro c v h
    simp [resetState] at h
  | init n hs ih =>
    exact ⟨by simp [initializeCameras], by simp [initializeCameras],
      initializeCameras_inv n _⟩
  | step cfg v fd hs ih =>
    exact processView_wf cfg v fd _ ih.1 ih.2.1 ih.2.2

/-- C9 counterexample: the claimed iff fails in a reachable state.  After
recording view 0 with a present detection and then re-recording view 0
with an absent one, the stored Observation at (camera 0, view 0) is
absent but view 0 is still in camera 0's ValidSet (the source never
removes indices from `valid_views`). -/
theorem c9_validset_iff_cex :
    (0 : ℕ) ∈ ((processView cfg0
        (processView cfg0 (initializeCameras 1 resetState) 0 [some [(0, 0)]]).1
        0 [none]).1).valid_views.getD 0 ∅ ∧
    (((processView cfg0
        (processView cfg0 (initializeCameras 1 resetState) 0 [some [(0, 0)]]).1
        0 [none]).1).image_points.getD 0 []).getD 0 none = none := by
  exact ⟨by decide, rfl⟩

/-- C9 amended: in every reachable Observation Store state, if the stored
Observation for (camera c, view v) is present then v is in camera c's
ValidSet.  (The converse direction of the claimed iff is false: a later
`process_view` call can overwrite a present detection with an absent one
without removing the view from the ValidSet.) -/
theorem c9_present_observation_in_validset (s : CalibState) (h : Reachable s)
    (c v : ℕ)
    (hobs : ((s.image_points.getD c []).getD v none).isSome = true) :
    v ∈ s.valid_views.getD c ∅ :=
  (reachable_wf s h).2.2 c v hobs

/-- Witness for C9 (amended) at a concrete reachable state: after
recording a present detection for view 0 on a one-camera session, view 0
is in camera 0's ValidSet. -/
theorem c9_witness :
    (0 : ℕ) ∈ ((processView cfg0 (initializeCameras 1 resetState) 0
        [some [(0, 0)]]).1).valid_views.getD 0 ∅ :=
  c9_present_observation_in_validset _
    (Reachable.step cfg0 0 [some [(0, 0)]] (Reachable.init 1 Reachable.reset))
    0 0 rfl

/-! ### Triangulator input dependence (C10) -/

/-- A tuple's camera index is in range for all three stored calibration
arrays (so the source's lookups cannot raise). -/
def camIdxOk (c : MCalib) (tup : ℕ × ℚ × ℚ) : Prop :=
  tup.1 < c.camera_matrices.length ∧ tup.1 < c.rotations.length ∧
  tup.1 < c.translations.length

instance (c : MCalib) (tup : ℕ × ℚ × ℚ) : Decidable (camIdxOk c tup) := by
  unfold camIdxOk
  infer_instance

theorem projOf_isSome (rodr : V3q → M3) (c : MCalib) (t : ℕ × ℚ × ℚ)
    (h : camIdxOk c t) : (projOf rodr c t).isSome = true := by
  obtain ⟨h1, h2, h3⟩ := h
  unfold projOf
  rw [List.getElem?_eq_getElem h1, List.getElem?_eq_getElem h2,
    List.getElem?_eq_getElem h3]
  rfl

/-- When every tuple's lookups succeed, the projection loop returns the
per-tuple results in order. -/
theorem buildProj_eq_map (rodr : V3q → M3) (c : MCalib) :
    ∀ pd : List (ℕ × ℚ × ℚ),
      (∀ t ∈ pd, (projOf rodr c t).isSome = true) →
      buildProj rodr c pd
        = some (pd.map fun t => (projOf rodr c t).getD default) := by
  intro pd
  induction pd with
  | nil => intro _; rfl
  | cons t ts ih =>
    intro h
    have ht : (projOf rodr c t).isSome = true := h t (by simp)
    have hts := ih fun x hx => h x (by simp [hx])
    obtain ⟨pv, hpv⟩ := Option.isSome_iff_exists.mp ht
    unfold buildProj
    rw [hts, hpv]
    simp [hpv]

/-- C10 amended: when every supplied tuple's camera index is in range for
the stored calibration, the triangulated point depends only on the first
two tuples: inputs agreeing on their first two tuples give identical
outputs.  (Without the index-validity condition the claim is false: an
out-of-range index in a later tuple makes the lookup raise and the call
return `None`.) -/
theorem c10_first_two_tuples_determine_output (rodr : V3q → M3)
    (tri : M34 → M34 → V2q → V2q → (Fin 4 → ℚ)) (c : MCalib)
    (pd1 pd2 : List (ℕ × ℚ × ℚ)) (hlen : 2 ≤ pd1.length)
    (hpre : pd1.take 2 = pd2.take 2)
    (h1 : ∀ t ∈ pd1, camIdxOk c t) (h2 : ∀ t ∈ pd2, camIdxOk c t) :
    triangulatePoint rodr tri (some c) pd1
      = triangulatePoint rodr tri (some c) pd2 := by
  have hb1 := buildProj_eq_map rodr c pd1
    fun t ht => projOf_isSome rodr c t (h1 t ht)
  have hb2 := buildProj_eq_map rodr c pd2
    fun t ht => projOf_isSome rodr c t (h2 t ht)
  have hget0 : pd1[0]? = pd2[0]? := by
    have e1 : (pd1.take 2)[0]? = pd1[0]? := by
      rw [List.getElem?_take]
      norm_num
    have e2 : (pd2.take 2)[0]? = pd2[0]? := by
      rw [List.getElem?_take]
      norm_num
    rw [← e1, ← e2, hpre]
  have hget1 : pd1[1]? = pd2[1]? := by
    have e1 : (pd1.take 2)[1]? = pd1[1]? := by
      rw [List.getElem?_take]
      norm_num
    have e2 : (pd2.take 2)[1]? = pd2[1]? := by
      rw [List.getElem?_take]
      norm_num
    rw [← e1, ← e2, hpre]
  unfold triangulatePoint
  dsimp only
  rw [hb1, hb2]
  dsimp only
  simp only [List.getElem?_map, hget0, hget1]

/-- Concrete two-camera calibration payload. -/
def cexCalib : MCalib :=
  ⟨[1, 1], [fun _ => 0, fun _ => 0], [fun _ => 0, fun _ => 0]⟩

/-- A concrete modelled `cv2.Rodrigues`. -/
def rodrC : V3q → M3 := fun _ => 1

/-- A concrete modelled `cv2.triangulatePoints` on one point pair. -/
def triC : M34 → M34 → V2q → V2q → (Fin 4 → ℚ) := fun _ _ _ _ => ![1, 1, 1, 1]

def pdA : List (ℕ × ℚ × ℚ) := [(0, 0, 0), (1, 0, 0)]

def pdB : List (ℕ × ℚ × ℚ) := [(0, 0, 0), (1, 0, 0), (5, 0, 0)]

def pdC : List (ℕ × ℚ × ℚ) := [(0, 0, 0), (1, 0, 0), (0, 7, 7)]

/-- C10 counterexample: two inputs with identical first two tuples where
the second input carries an extra tuple with an out-of-range camera index
(5 on a 2-camera calibration).  The first call returns a point, the
second returns `None` (the lookup raises), so the output does not depend
only on the first two tuples. -/
theorem c10_extra_tuple_changes_output_cex :
    pdA.take 2 = pdB.take 2 ∧ 2 ≤ pdA.length ∧ 2 ≤ pdB.length ∧
    triangulatePoint rodrC triC (some cexCalib) pdA
      ≠ triangulatePoint rodrC triC (some cexCalib) pdB := by
  refine ⟨by decide, by decide, by decide, ?_⟩
  have hA : (triangulatePoint rodrC triC (some cexCalib) pdA).isSome = true := rfl
  have hB : triangulatePoint rodrC triC (some cexCalib) pdB = none := rfl
  intro h
  rw [h, hB] at hA
  simp at hA

/-- Witness for C10 (amended) at concrete inputs: extending the list with
a further tuple whose camera index is valid leaves the output
unchanged. -/
theorem c10_witness :
    triangulatePoint rodrC triC (some cexCalib) pdA
      = triangulatePoint rodrC triC (some cexCalib) pdC :=
  c10_first_two_tuples_determine_output rodrC triC cexCalib pdA pdC
    (by decide) (by decide) (by decide) (by decide)

end Vision
